import Mathlib

/-!
Verification of the smart-camera relay/producer system.

The embedding models, from `src/client/client.py` and `src/server/server.py`:
  * `normalize_boxes` — the producer's box-normalization arithmetic, over ℚ,
    with Python's `ZeroDivisionError` modelled as `Except.error ()`;
  * `ConnectionManager` / `broadcast_to_viewers` — the relay's viewer
    registry and fan-out pass (send success/failure supplied as an oracle
    `sendOk`, viewer channels modelled as naturals);
  * `websocket_pi_step` — one message-handling step of the producer endpoint,
    with `json.loads` results modelled as `Option JsonVal` and Python's `in`
    operator on the parsed value modelled including its `TypeError` branch;
  * `streamIter` / `captureTimes` — one iteration of the producer's streaming
    loop (rate limit, capture, normalize, encode, send) and the times at which
    capture is actually attempted;
  * `handleStreamingExc` — the producer's exception dispatch around the
    streaming loop (`except` clauses of `send_frames`).
-/

/-- Configuration constant `MAX_FPS = 10` from `client.py`. -/
def MAX_FPS : ℚ := 10

/-- Configuration constant `JPEG_QUALITY = 60` from `client.py`. -/
def JPEG_QUALITY : ℕ := 60

/-- The loop body of `normalize_boxes` over the zipped `(box, conf)` pairs.
Python computes `nx = x1 / w` first, so a zero `w` or zero `h` raises
`ZeroDivisionError` at the first pair; this is the `Except.error ()` branch.
Otherwise each pair appends `[x1/w, y1/h, (x2-x1)/w, (y2-y1)/h, conf]`. -/
def normalizeLoop (w h : ℚ) : List ((ℚ × ℚ × ℚ × ℚ) × ℚ) → Except Unit (List (List ℚ))
  | [] => Except.ok []
  | ((x1, y1, x2, y2), conf) :: rest =>
    if w = 0 ∨ h = 0 then Except.error ()
    else
      match normalizeLoop w h rest with
      | Except.error e => Except.error e
      | Except.ok tail =>
          Except.ok ([x1 / w, y1 / h, (x2 - x1) / w, (y2 - y1) / h, conf] :: tail)

/-- `normalize_boxes` from `client.py`.  `frame_shape` carries the first two
components of the numpy shape, i.e. `(height, width)`, exactly as in
`h, w = frame_shape[:2]`; boxes are zipped with confidences as in the source. -/
def normalize_boxes (frame_shape : ℕ × ℕ) (boxes_xyxy : List (ℚ × ℚ × ℚ × ℚ))
    (confs : List ℚ) : Except Unit (List (List ℚ)) :=
  normalizeLoop (frame_shape.2 : ℚ) (frame_shape.1 : ℚ) (boxes_xyxy.zip confs)

/-- The per-pair arithmetic of `normalize_boxes`, as a plain function. -/
def normEntry (w h : ℚ) (p : (ℚ × ℚ × ℚ × ℚ) × ℚ) : List ℚ :=
  [p.1.1 / w, p.1.2.1 / h, (p.1.2.2.1 - p.1.1) / w, (p.1.2.2.2 - p.1.2.1) / h, p.2]

lemma normalizeLoop_ok (w h : ℚ) (hw : w ≠ 0) (hh : h ≠ 0)
    (l : List ((ℚ × ℚ × ℚ × ℚ) × ℚ)) :
    normalizeLoop w h l = Except.ok (l.map (normEntry w h)) := by
  induction l with
  | nil => rfl
  | cons p rest ih =>
    obtain ⟨⟨x1, y1, x2, y2⟩, conf⟩ := p
    simp [normalizeLoop, hw, hh, ih, normEntry]

lemma normalizeLoop_error (w h : ℚ) (hzero : w = 0 ∨ h = 0)
    (p : (ℚ × ℚ × ℚ × ℚ) × ℚ) (rest : List ((ℚ × ℚ × ℚ × ℚ) × ℚ)) :
    normalizeLoop w h (p :: rest) = Except.error () := by
  obtain ⟨⟨x1, y1, x2, y2⟩, conf⟩ := p
  simp [normalizeLoop, hzero]

/-- Claim C4: for pixel boxes with confidences and a frame of positive pixel
width `W` and height `H`, `normalize_boxes` returns, for each zipped box in
order, exactly `[x1/W, y1/H, (x2-x1)/W, (y2-y1)/H, conf]`, the confidence
passed through unchanged; no box is rejected and no clamping to `[0,1]`
occurs, so inverted boxes (`x2 < x1` or `y2 < y1`) yield negative widths or
heights uncorrected in the output. -/
theorem normalize_boxes_formula (W H : ℕ) (hW : 0 < W) (hH : 0 < H)
    (boxes_xyxy : List (ℚ × ℚ × ℚ × ℚ)) (confs : List ℚ) :
    normalize_boxes (H, W) boxes_xyxy confs =
      Except.ok ((boxes_xyxy.zip confs).map (fun p =>
        [p.1.1 / (W : ℚ), p.1.2.1 / (H : ℚ), (p.1.2.2.1 - p.1.1) / (W : ℚ),
          (p.1.2.2.2 - p.1.2.1) / (H : ℚ), p.2])) := by
  have hw : (W : ℚ) ≠ 0 := by exact_mod_cast hW.ne'
  have hh : (H : ℚ) ≠ 0 := by exact_mod_cast hH.ne'
  simpa [normEntry] using normalizeLoop_ok (W : ℚ) (H : ℚ) hw hh (boxes_xyxy.zip confs)

/-- Witness for C4, at a degenerate (inverted) box: frame 4×4, box
`(x1,y1,x2,y2) = (2,3,1,1)` with confidence `1/2` normalizes to
`[1/2, 3/4, -1/4, -1/2, 1/2]` — the negative width and height pass through. -/
theorem normalize_boxes_formula_witness :
    normalize_boxes (4, 4) [(2, 3, 1, 1)] [1/2] =
      Except.ok [[1/2, 3/4, -1/4, -1/2, 1/2]] := by
  have h := normalize_boxes_formula 4 4 (by decide) (by decide) [(2, 3, 1, 1)] [1/2]
  rw [h]
  norm_num

/-- Claim C5: round-trip law.  For positive frame dimensions, each output row
of `normalize_boxes` multiplied back by the frame width (x and w components)
and height (y and h components) reproduces exactly `x1`, `y1`, `x2 - x1` and
`y2 - y1`; the law is exact over ℚ. -/
theorem normalize_boxes_roundtrip (W H : ℕ) (hW : 0 < W) (hH : 0 < H)
    (boxes_xyxy : List (ℚ × ℚ × ℚ × ℚ)) (confs : List ℚ)
    (out : List (List ℚ)) (hok : normalize_boxes (H, W) boxes_xyxy confs = Except.ok out)
    (i : ℕ) (hi : i < (boxes_xyxy.zip confs).length) (hio : i < out.length) :
    ∃ nx ny nw nh : ℚ,
      out.get ⟨i, hio⟩ =
        [nx, ny, nw, nh, ((boxes_xyxy.zip confs).get ⟨i, hi⟩).2] ∧
      nx * (W : ℚ) = ((boxes_xyxy.zip confs).get ⟨i, hi⟩).1.1 ∧
      ny * (H : ℚ) = ((boxes_xyxy.zip confs).get ⟨i, hi⟩).1.2.1 ∧
      nw * (W : ℚ) = ((boxes_xyxy.zip confs).get ⟨i, hi⟩).1.2.2.1 -
        ((boxes_xyxy.zip confs).get ⟨i, hi⟩).1.1 ∧
      nh * (H : ℚ) = ((boxes_xyxy.zip confs).get ⟨i, hi⟩).1.2.2.2 -
        ((boxes_xyxy.zip confs).get ⟨i, hi⟩).1.2.1 := by
  have hw : (W : ℚ) ≠ 0 := by exact_mod_cast hW.ne'
  have hh : (H : ℚ) ≠ 0 := by exact_mod_cast hH.ne'
  have hform : normalize_boxes (H, W) boxes_xyxy confs =
      Except.ok ((boxes_xyxy.zip confs).map (normEntry (W : ℚ) (H : ℚ))) :=
    normalizeLoop_ok (W : ℚ) (H : ℚ) hw hh (boxes_xyxy.zip confs)
  rw [hform] at hok
  have hout : out = (boxes_xyxy.zip confs).map (normEntry (W : ℚ) (H : ℚ)) := by
    injection hok.symm
  set p := (boxes_xyxy.zip confs).get ⟨i, hi⟩ with hp
  refine ⟨p.1.1 / (W : ℚ), p.1.2.1 / (H : ℚ), (p.1.2.2.1 - p.1.1) / (W : ℚ),
    (p.1.2.2.2 - p.1.2.1) / (H : ℚ), ?_, ?_, ?_, ?_, ?_⟩
  · subst hout
    simp only [List.get_eq_getElem, List.getElem_map]
    simp [normEntry, hp]
  · exact div_mul_cancel₀ _ hw
  · exact div_mul_cancel₀ _ hh
  · exact div_mul_cancel₀ _ hw
  · exact div_mul_cancel₀ _ hh

/-- Witness for C5: frame 5×2, box `(1,1,4,2)`, confidence `9/10`; the
normalized row multiplied back by width 5 / height 2 recovers `1`, `1`,
`3` and `1`. -/
theorem normalize_boxes_roundtrip_witness :
    ∃ nx ny nw nh : ℚ,
      ([[1/5, 1/2, 3/5, 1/2, 9/10]] : List (List ℚ)).get ⟨0, by decide⟩ =
        [nx, ny, nw, nh, (([((1:ℚ), (1:ℚ), (4:ℚ), (2:ℚ))].zip [(9:ℚ)/10]).get ⟨0, by decide⟩).2] ∧
      nx * ((5 : ℕ) : ℚ) = (([((1:ℚ), (1:ℚ), (4:ℚ), (2:ℚ))].zip [(9:ℚ)/10]).get ⟨0, by decide⟩).1.1 ∧
      ny * ((2 : ℕ) : ℚ) = (([((1:ℚ), (1:ℚ), (4:ℚ), (2:ℚ))].zip [(9:ℚ)/10]).get ⟨0, by decide⟩).1.2.1 ∧
      nw * ((5 : ℕ) : ℚ) = (([((1:ℚ), (1:ℚ), (4:ℚ), (2:ℚ))].zip [(9:ℚ)/10]).get ⟨0, by decide⟩).1.2.2.1 -
        (([((1:ℚ), (1:ℚ), (4:ℚ), (2:ℚ))].zip [(9:ℚ)/10]).get ⟨0, by decide⟩).1.1 ∧
      nh * ((2 : ℕ) : ℚ) = (([((1:ℚ), (1:ℚ), (4:ℚ), (2:ℚ))].zip [(9:ℚ)/10]).get ⟨0, by decide⟩).1.2.2.2 -
        (([((1:ℚ), (1:ℚ), (4:ℚ), (2:ℚ))].zip [(9:ℚ)/10]).get ⟨0, by decide⟩).1.2.1 :=
  normalize_boxes_roundtrip 5 2 (by decide) (by decide)
    [((1:ℚ), (1:ℚ), (4:ℚ), (2:ℚ))] [(9:ℚ)/10] [[1/5, 1/2, 3/5, 1/2, 9/10]]
    (by norm_num [normalize_boxes, normalizeLoop]) 0 (by decide) (by decide)

/-- Claim C9: `normalize_boxes` divides without a guard.  For any non-empty
paired box/confidence input, the call raises `ZeroDivisionError` (the
`Except.error ()` branch) exactly when the frame width or height is `0`;
equivalently it is total exactly under the unstated precondition that both
frame dimensions are positive. -/
theorem normalize_boxes_div_by_zero (W H : ℕ)
    (boxes_xyxy : List (ℚ × ℚ × ℚ × ℚ)) (confs : List ℚ)
    (hb : boxes_xyxy ≠ []) (hc : confs ≠ []) :
    normalize_boxes (H, W) boxes_xyxy confs = Except.error () ↔ (W = 0 ∨ H = 0) := by
  obtain ⟨b, bs, rfl⟩ := List.exists_cons_of_ne_nil hb
  obtain ⟨c, cs, rfl⟩ := List.exists_cons_of_ne_nil hc
  constructor
  · intro herr
    by_contra hpos
    push_neg at hpos
    have hw : (W : ℚ) ≠ 0 := by exact_mod_cast hpos.1
    have hh : (H : ℚ) ≠ 0 := by exact_mod_cast hpos.2
    rw [normalize_boxes, normalizeLoop_ok _ _ hw hh] at herr
    exact Except.noConfusion herr
  · intro hzero
    have hz : (W : ℚ) = 0 ∨ (H : ℚ) = 0 := by
      rcases hzero with h | h
      · exact Or.inl (by exact_mod_cast h)
      · exact Or.inr (by exact_mod_cast h)
    rw [normalize_boxes]
    simp only [List.zip_cons_cons]
    exact normalizeLoop_error _ _ hz _ _

/-- Witness for C9: a frame reported as width `0` (shape `(3, 0)`) with one
box makes `normalize_boxes` raise, and the bi-implication is discharged at
that input. -/
theorem normalize_boxes_div_by_zero_witness :
    normalize_boxes (3, 0) [((1:ℚ), 1, 2, 2)] [(1:ℚ)] = Except.error () :=
  (normalize_boxes_div_by_zero 0 3 [((1:ℚ), 1, 2, 2)] [(1:ℚ)]
    (by decide) (by decide)).mpr (Or.inl rfl)

/-- `ConnectionManager` from `server.py`: a set of viewer channels and a set
of producer (`pi`) channels.  Channels are modelled as naturals. -/
structure ConnectionManager where
  viewers : Finset ℕ
  pi_connections : Finset ℕ
deriving DecidableEq

/-- The snapshot `list(self.viewers)` taken at fan-out time.  Python's set
iteration order is unspecified; the model enumerates the set in ascending
order, one valid such order. -/
def snapshotViewers (m : ConnectionManager) : List ℕ :=
  m.viewers.sort (· ≤ ·)

/-- The `for viewer in list(self.viewers)` loop of `broadcast_to_viewers`:
one `send_text(message)` attempt per snapshot viewer in order, appending the
viewer to `dead` when the attempt raises.  `sendOk` is the oracle saying
which viewers' sends succeed.  Returns (attempts made, dead list). -/
def fanOut (message : String) (sendOk : ℕ → Bool) :
    List ℕ → List (ℕ × String) × List ℕ
  | [] => ([], [])
  | v :: rest =>
    let r := fanOut message sendOk rest
    ((v, message) :: r.1, if sendOk v then r.2 else v :: r.2)

/-- `broadcast_to_viewers` from `server.py`: snapshot the viewer set, attempt
one send of the unmodified `message` to each snapshot viewer, then
`discard` every dead viewer from the viewer set.  Returns the attempt list
(for specification purposes) and the updated manager. -/
def broadcast_to_viewers (m : ConnectionManager) (message : String)
    (sendOk : ℕ → Bool) : List (ℕ × String) × ConnectionManager :=
  let r := fanOut message sendOk (snapshotViewers m)
  (r.1, { viewers := r.2.foldl Finset.erase m.viewers,
          pi_connections := m.pi_connections })

lemma fanOut_fst (message : String) (sendOk : ℕ → Bool) (l : List ℕ) :
    (fanOut message sendOk l).1 = l.map (fun v => (v, message)) := by
  induction l with
  | nil => rfl
  | cons v rest ih => simp [fanOut, ih]

lemma fanOut_snd (message : String) (sendOk : ℕ → Bool) (l : List ℕ) :
    (fanOut message sendOk l).2 = l.filter (fun v => !sendOk v) := by
  induction l with
  | nil => rfl
  | cons v rest ih =>
    by_cases h : sendOk v <;> simp [fanOut, ih, h, List.filter]

lemma mem_foldl_erase (l : List ℕ) (s : Finset ℕ) (x : ℕ) :
    x ∈ l.foldl Finset.erase s ↔ x ∈ s ∧ x ∉ l := by
  induction l generalizing s with
  | nil => simp
  | cons a rest ih =>
    simp only [List.foldl_cons, ih, Finset.mem_erase, List.mem_cons]
    tauto

lemma broadcast_viewers_eq (m : ConnectionManager) (message : String)
    (sendOk : ℕ → Bool) :
    (broadcast_to_viewers m message sendOk).2.viewers =
      m.viewers.filter (fun v => sendOk v = true) := by
  ext x
  rw [broadcast_to_viewers]
  simp only [Finset.mem_filter]
  rw [mem_foldl_erase, fanOut_snd]
  simp only [List.mem_filter, Bool.not_eq_true', snapshotViewers, Finset.mem_sort]
  constructor
  · rintro ⟨hx, hnot⟩
    refine ⟨hx, ?_⟩
    by_contra hfail
    exact hnot ⟨hx, by simpa using hfail⟩
  · rintro ⟨hx, hok⟩
    exact ⟨hx, fun hmem => by simp [hok] at hmem⟩

/-- Claim C1: for every broadcast, the relay makes exactly one send attempt
per snapshot viewer, in snapshot order, and every attempt carries the
original serialized message unmodified; with `N` snapshot viewers there are
exactly `N` (hence at most `N`) attempts, and with zero viewers the fan-out
makes no attempts, leaves the manager unchanged and raises no error (the
function is total). -/
theorem broadcast_attempts_exact (m : ConnectionManager) (message : String)
    (sendOk : ℕ → Bool) :
    (broadcast_to_viewers m message sendOk).1 =
      (snapshotViewers m).map (fun v => (v, message)) ∧
    (∀ a ∈ (broadcast_to_viewers m message sendOk).1, a.2 = message) ∧
    (broadcast_to_viewers m message sendOk).1.length = m.viewers.card ∧
    (∀ v ∈ m.viewers,
      ((broadcast_to_viewers m message sendOk).1.countP (fun a => a.1 == v)) = 1) ∧
    (m.viewers = ∅ → (broadcast_to_viewers m message sendOk).1 = [] ∧
      (broadcast_to_viewers m message sendOk).2 = m) := by
  have hfst : (broadcast_to_viewers m message sendOk).1 =
      (snapshotViewers m).map (fun v => (v, message)) := by
    rw [broadcast_to_viewers]
    exact fanOut_fst message sendOk (snapshotViewers m)
  refine ⟨hfst, ?_, ?_, ?_, ?_⟩
  · intro a ha
    rw [hfst] at ha
    obtain ⟨v, _, rfl⟩ := List.mem_map.mp ha
    rfl
  · rw [hfst, List.length_map, snapshotViewers, Finset.length_sort]
  · intro v hv
    rw [hfst]
    have hcount : ((snapshotViewers m).map (fun w => (w, message))).countP
        (fun a => a.1 == v) = (snapshotViewers m).countP (fun w => w == v) := by
      rw [List.countP_map]
      rfl
    rw [hcount]
    have hnd : (snapshotViewers m).Nodup := Finset.sort_nodup _ _
    have hmem : v ∈ snapshotViewers m := by
      rw [snapshotViewers, Finset.mem_sort]
      exact hv
    have : (snapshotViewers m).count v = 1 :=
      List.count_eq_one_of_mem hnd hmem
    simpa [List.count] using this
  · intro hemp
    have hsnap : snapshotViewers m = [] := by
      simp [snapshotViewers, hemp]
    constructor
    · rw [hfst, hsnap]
      rfl
    · rw [broadcast_to_viewers]
      have hfan : fanOut message sendOk (snapshotViewers m) = ([], []) := by
        rw [hsnap]
        rfl
      rw [hfan]
      rfl

/-- Witness for C1: a manager with viewers `{1, 2}` and producer set `{5}`;
the attempt count for viewer `1` is exactly `1`. -/
theorem broadcast_attempts_exact_witness :
    ((broadcast_to_viewers ⟨{1, 2}, {5}⟩ "frame" (fun v => v == 1)).1.countP
      (fun a => a.1 == 1)) = 1 :=
  (broadcast_attempts_exact ⟨{1, 2}, {5}⟩ "frame" (fun v => v == 1)).2.2.2.1
    1 (by decide)

/-- Claim C2: failure isolation in one fan-out pass.  Every snapshot viewer
receives its send attempt no matter which other viewers fail; after the pass
every viewer whose send failed appears exactly once in the `dead` list (so it
is unregistered exactly once) and is no longer in the viewer set, while every
viewer whose send succeeded stays registered. -/
theorem broadcast_failure_isolation (m : ConnectionManager) (message : String)
    (sendOk : ℕ → Bool) :
    (∀ v ∈ m.viewers, (v, message) ∈ (broadcast_to_viewers m message sendOk).1) ∧
    (∀ v ∈ m.viewers, sendOk v = false →
      (fanOut message sendOk (snapshotViewers m)).2.count v = 1 ∧
      v ∉ (broadcast_to_viewers m message sendOk).2.viewers) ∧
    (∀ v ∈ m.viewers, sendOk v = true →
      v ∈ (broadcast_to_viewers m message sendOk).2.viewers) := by
  have hsnap : ∀ v, v ∈ snapshotViewers m ↔ v ∈ m.viewers := by
    intro v
    rw [snapshotViewers, Finset.mem_sort]
  have hnd : (snapshotViewers m).Nodup := Finset.sort_nodup _ _
  refine ⟨?_, ?_, ?_⟩
  · intro v hv
    rw [broadcast_to_viewers]
    simp only [fanOut_fst, List.mem_map]
    exact ⟨v, (hsnap v).mpr hv, rfl⟩
  · intro v hv hfail
    constructor
    · rw [fanOut_snd]
      have hmem : v ∈ (snapshotViewers m).filter (fun w => !sendOk w) := by
        rw [List.mem_filter]
        exact ⟨(hsnap v).mpr hv, by simp [hfail]⟩
      exact List.count_eq_one_of_mem (hnd.filter _) hmem
    · rw [broadcast_viewers_eq]
      simp [hfail]
  · intro v hv hok
    rw [broadcast_viewers_eq]
    simp [hv, hok]

/-- Witness for C2: viewers `{1, 2}`, viewer `2`'s send fails; viewer `2` is
unregistered exactly once (its dead-list count is `1`) and leaves the viewer
set. -/
theorem broadcast_failure_isolation_witness :
    (fanOut "frame" (fun v => v == 1) (snapshotViewers ⟨{1, 2}, {5}⟩)).2.count 2 = 1 ∧
    2 ∉ (broadcast_to_viewers ⟨{1, 2}, {5}⟩ "frame" (fun v => v == 1)).2.viewers :=
  (broadcast_failure_isolation ⟨{1, 2}, {5}⟩ "frame" (fun v => v == 1)).2.1
    2 (by decide) (by decide)

/-- Claim C10: the frame effect of one broadcast.  The producer-connection
set is unchanged, and the viewer set is mutated only by removal of the
failed viewers: the post-broadcast viewer set equals the pre-broadcast set
minus exactly the viewers whose send failed (equivalently, the viewers whose
send succeeded). -/
theorem broadcast_mutates_only_failed (m : ConnectionManager) (message : String)
    (sendOk : ℕ → Bool) :
    (broadcast_to_viewers m message sendOk).2.pi_connections = m.pi_connections ∧
    (broadcast_to_viewers m message sendOk).2.viewers =
      m.viewers \ m.viewers.filter (fun v => sendOk v = false) ∧
    (broadcast_to_viewers m message sendOk).2.viewers =
      m.viewers.filter (fun v => sendOk v = true) := by
  refine ⟨rfl, ?_, broadcast_viewers_eq m message sendOk⟩
  rw [broadcast_viewers_eq]
  ext x
  simp only [Finset.mem_filter, Finset.mem_sdiff, Bool.not_eq_true]
  constructor
  · rintro ⟨hx, hok⟩
    exact ⟨hx, fun hmem => by simp [hok] at hmem⟩
  · rintro ⟨hx, hnot⟩
    refine ⟨hx, ?_⟩
    by_contra hfail
    exact hnot ⟨hx, by simpa using hfail⟩

/-- Values produced by `json.loads` in `server.py`'s `websocket_pi` handler. -/
inductive JsonVal where
  | null : JsonVal
  | bool (b : Bool) : JsonVal
  | num (q : ℚ) : JsonVal
  | str (s : String) : JsonVal
  | arr (elems : List JsonVal) : JsonVal
  | obj (fields : List (String × JsonVal)) : JsonVal

/-- Python `element == "k"` for a list element of the parsed value: only a
string element can compare equal to a string key. -/
def jsonEqStr : JsonVal → String → Bool
  | JsonVal.str s, k => s == k
  | _, _ => false

/-- Character-list substring test, modelling Python's `k in s` on strings. -/
def listContainsSub (s pat : List Char) : Bool :=
  (List.range (s.length + 1)).any (fun i => List.isPrefixOf pat (s.drop i))

/-- Python's `k in data` on the parsed JSON value: key membership for a
dict, element equality for a list, substring for a string, and `TypeError`
(modelled as `Except.error ()`) for `null`, booleans and numbers. -/
def pyContains (j : JsonVal) (k : String) : Except Unit Bool :=
  match j with
  | JsonVal.obj fields => Except.ok (fields.any (fun f => f.1 == k))
  | JsonVal.arr elems => Except.ok (elems.any (fun e => jsonEqStr e k))
  | JsonVal.str s => Except.ok (listContainsSub s.toList k.toList)
  | _ => Except.error ()

/-- Outcome of one message-handling step of `websocket_pi`. -/
inductive PiStepResult where
  | discarded : PiStepResult
  | broadcasted (attempts : List (ℕ × String)) (newManager : ConnectionManager) : PiStepResult
  | handlerException : PiStepResult

/-- One iteration of the `websocket_pi` receive loop from `server.py` on a
received text `raw`.  `parsed` is the result of `json.loads(raw)` (`none`
models `json.JSONDecodeError`).  Parse failure or a missing `image`/`boxes`
key hits `continue` (`discarded`); a `TypeError` from the `in` operator
escapes the inner `try` (`handlerException`); otherwise the handler calls
`broadcast_to_viewers(message)` with the original raw text. -/
def websocket_pi_step (m : ConnectionManager) (raw : String)
    (parsed : Option JsonVal) (sendOk : ℕ → Bool) : PiStepResult :=
  match parsed with
  | none => PiStepResult.discarded
  | some data =>
    match pyContains data "image" with
    | Except.error _ => PiStepResult.handlerException
    | Except.ok hasImage =>
      if !hasImage then PiStepResult.discarded
      else
        match pyContains data "boxes" with
        | Except.error _ => PiStepResult.handlerException
        | Except.ok hasBoxes =>
          if !hasBoxes then PiStepResult.discarded
          else
            let r := broadcast_to_viewers m raw sendOk
            PiStepResult.broadcasted r.1 r.2

/-- Claim C3: a raw producer message that fails JSON parsing, or parses to an
object lacking the `image` key or lacking the `boxes` key, is silently
discarded: the step result is `discarded`, i.e. `broadcast_to_viewers` is
never called (zero deliveries to any viewer), no error is surfaced to the
producer, and the handler proceeds to receive the next message rather than
crashing. -/
theorem websocket_pi_discards_malformed (m : ConnectionManager) (raw : String)
    (parsed : Option JsonVal) (sendOk : ℕ → Bool)
    (h : parsed = none ∨ ∃ fields, parsed = some (JsonVal.obj fields) ∧
      ((fields.any (fun f => f.1 == "image")) = false ∨
       (fields.any (fun f => f.1 == "boxes")) = false)) :
    websocket_pi_step m raw parsed sendOk = PiStepResult.discarded := by
  rcases h with rfl | ⟨fields, rfl, hmiss⟩
  · rfl
  · rcases hmiss with himg | hbox
    · simp [websocket_pi_step, pyContains, himg]
    · by_cases himg : (fields.any (fun f => f.1 == "image")) = true
      · simp [websocket_pi_step, pyContains, himg, hbox]
      · simp [websocket_pi_step, pyContains, Bool.eq_false_iff.mpr himg]

/-- Witness for C3: a parsed object with an `image` key but no `boxes` key
is discarded by the handler. -/
theorem websocket_pi_discards_malformed_witness :
    websocket_pi_step ⟨{1, 2}, {5}⟩ "raw"
      (some (JsonVal.obj [("image", JsonVal.str "abc")])) (fun _ => true) =
      PiStepResult.discarded :=
  websocket_pi_discards_malformed ⟨{1, 2}, {5}⟩ "raw"
    (some (JsonVal.obj [("image", JsonVal.str "abc")])) (fun _ => true)
    (Or.inr ⟨[("image", JsonVal.str "abc")], rfl, Or.inr (by decide)⟩)

/-- The exception kinds relevant to the producer's streaming loop in
`send_frames` (`client.py`).  `connectionClosedOK` is the clean-close variant
`websockets.exceptions.ConnectionClosedOK`, a sibling of
`ConnectionClosedError` that the source's `except` clauses do not list. -/
inductive TransportExc where
  | connectionClosedError : TransportExc
  | connectionClosedOK : TransportExc
  | invalidURI : TransportExc
  | osError : TransportExc
  | otherExc : TransportExc
deriving DecidableEq

/-- What the producer does after an exception escapes the streaming loop. -/
inductive ProducerOutcome where
  | backoffRetry (seconds : ℚ) : ProducerOutcome
  | fatalExit : ProducerOutcome
deriving DecidableEq

/-- The `except` dispatch wrapped around the streaming loop in `send_frames`:
`ConnectionClosedError` and `InvalidURI` are caught together, `OSError` is
caught separately, each sleeping a fixed 3 seconds before re-entering the
connect loop; any other exception propagates out of the outer `while True`,
runs the `finally` cleanup and ends the producer. -/
def handleStreamingExc : TransportExc → ProducerOutcome
  | TransportExc.connectionClosedError => ProducerOutcome.backoffRetry 3
  | TransportExc.invalidURI => ProducerOutcome.backoffRetry 3
  | TransportExc.osError => ProducerOutcome.backoffRetry 3
  | _ => ProducerOutcome.fatalExit

/-- Counterexample to C6: a clean close of the connection during `ws.send`
raises `ConnectionClosedOK`, a connection-closed transmit failure, and the
producer's exception dispatch does not back off and retry — the exception
propagates and the producer exits, contradicting "no transport error is
fatal". -/
theorem handleStreamingExc_clean_close_fatal :
    handleStreamingExc TransportExc.connectionClosedOK = ProducerOutcome.fatalExit := by
  decide

/-- Amended C6: for exactly the transmit failures the source lists —
`ConnectionClosedError`, `InvalidURI` and `OSError` — the producer returns to
the Disconnected state after a fixed, non-growing 3-second backoff and
retries the connection; the clean-close failure `ConnectionClosedOK` (and any
other unlisted exception) instead terminates the producer. -/
theorem handleStreamingExc_backoff :
    handleStreamingExc TransportExc.connectionClosedError = ProducerOutcome.backoffRetry 3 ∧
    handleStreamingExc TransportExc.invalidURI = ProducerOutcome.backoffRetry 3 ∧
    handleStreamingExc TransportExc.osError = ProducerOutcome.backoffRetry 3 ∧
    handleStreamingExc TransportExc.connectionClosedOK = ProducerOutcome.fatalExit ∧
    handleStreamingExc TransportExc.otherExc = ProducerOutcome.fatalExit := by
  decide

/-- The external inputs consumed by one iteration of the streaming loop:
`time.time()`, the `cap.read()` outcome, detector output, the frame's pixel
dimensions, and the JPEG encoder outcome (`cv2.imencode` success flag plus
the resulting base64 text). -/
structure IterInput where
  now : ℚ
  capRet : Bool
  detBoxes : List (ℚ × ℚ × ℚ × ℚ)
  detConfs : List ℚ
  frameH : ℕ
  frameW : ℕ
  encodeOk : Bool
  encodedB64 : String

/-- The serialized payload `{"image": b64, "boxes": norm_boxes}` built by the
producer before `ws.send`. -/
def mkPayload (b64 : String) (boxes : List (List ℚ)) : JsonVal :=
  JsonVal.obj [("image", JsonVal.str b64),
    ("boxes", JsonVal.arr (boxes.map (fun b => JsonVal.arr (b.map JsonVal.num))))]

/-- Outcome of one iteration of the inner streaming loop.  All constructors
except `divByZero` leave the loop in the Streaming state on the same
connection; `divByZero` models an uncaught `ZeroDivisionError` from
`normalize_boxes`. -/
inductive IterResult where
  | rateSkip (sleep : ℚ) : IterResult
  | captureSkip (sleep : ℚ) : IterResult
  | encodeSkip : IterResult
  | sent (payload : JsonVal) : IterResult
  | divByZero : IterResult

/-- One iteration of the inner `while True` of `send_frames`, returning the
iteration outcome and the new `last_frame_time`.  The rate check runs first
and skips with a 1 ms sleep leaving `last_frame_time` unchanged; otherwise
`last_frame_time` is set to `now` before `cap.read()`, a failed read skips
with a 0.1 s sleep, then detection boxes are normalized, a failed JPEG
encode skips the frame, and otherwise the payload is sent. -/
def streamIter (last : ℚ) (inp : IterInput) : IterResult × ℚ :=
  if inp.now - last < 1 / MAX_FPS then (IterResult.rateSkip (1/1000), last)
  else if inp.capRet = false then (IterResult.captureSkip (1/10), inp.now)
  else
    match normalize_boxes (inp.frameH, inp.frameW) inp.detBoxes inp.detConfs with
    | Except.error _ => (IterResult.divByZero, inp.now)
    | Except.ok nb =>
      if inp.encodeOk = false then (IterResult.encodeSkip, inp.now)
      else (IterResult.sent (mkPayload inp.encodedB64 nb), inp.now)

/-- Whether an iteration outcome keeps the producer in the Streaming state on
the same connection (no reconnect, no loop exit). -/
def staysStreaming : IterResult → Bool
  | IterResult.divByZero => false
  | _ => true

/-- Claim C7: in the Streaming state (the rate check passed), a capture
failure produces only a logged skip with a 0.1 s pause and an encode failure
skips only the current frame; both remain in Streaming on the same
connection and neither sends a message. -/
theorem streamIter_skip_failures (last : ℚ) (inp : IterInput)
    (hrate : ¬ inp.now - last < 1 / MAX_FPS) :
    (inp.capRet = false →
      streamIter last inp = (IterResult.captureSkip (1/10), inp.now) ∧
      staysStreaming (streamIter last inp).1 = true ∧
      ∀ p, (streamIter last inp).1 ≠ IterResult.sent p) ∧
    (∀ nb, inp.capRet = true →
      normalize_boxes (inp.frameH, inp.frameW) inp.detBoxes inp.detConfs = Except.ok nb →
      inp.encodeOk = false →
      streamIter last inp = (IterResult.encodeSkip, inp.now) ∧
      staysStreaming (streamIter last inp).1 = true ∧
      ∀ p, (streamIter last inp).1 ≠ IterResult.sent p) := by
  constructor
  · intro hcap
    have heq : streamIter last inp = (IterResult.captureSkip (1/10), inp.now) := by
      rw [streamIter, if_neg hrate, if_pos hcap]
    refine ⟨heq, ?_, ?_⟩
    · rw [heq]
      rfl
    · intro p
      rw [heq]
      exact fun hc => IterResult.noConfusion hc
  · intro nb hcap hnorm henc
    have heq : streamIter last inp = (IterResult.encodeSkip, inp.now) := by
      rw [streamIter, if_neg hrate, if_neg (by simp [hcap]), hnorm]
      simp [henc]
    refine ⟨heq, ?_, ?_⟩
    · rw [heq]
      rfl
    · intro p
      rw [heq]
      exact fun hc => IterResult.noConfusion hc

/-- Witness for C7: rate check passed (`now = 1`, `last = 0`) and
`cap.read()` failed; the iteration skips with the 0.1 s pause. -/
theorem streamIter_skip_failures_witness :
    streamIter 0 ⟨1, false, [], [], 2, 2, true, "b"⟩ =
      (IterResult.captureSkip (1/10), 1) :=
  (((streamIter_skip_failures 0 ⟨1, false, [], [], 2, 2, true, "b"⟩
    (by norm_num [MAX_FPS])).1) rfl).1

/-- Whether an iteration outcome is an actual capture attempt (everything
except a rate-limit skip reaches `cap.read()`). -/
def isCaptureAttempt : IterResult → Bool
  | IterResult.rateSkip _ => false
  | _ => true

/-- The trace of the inner streaming loop over a list of iteration inputs,
threading `last_frame_time` through `streamIter`; each entry records the
iteration's clock reading and outcome. -/
def streamTrace (last : ℚ) : List IterInput → List (ℚ × IterResult)
  | [] => []
  | inp :: rest =>
    (inp.now, (streamIter last inp).1) :: streamTrace (streamIter last inp).2 rest

/-- The clock times of the iterations that actually attempted a capture. -/
def captureTimes (last : ℚ) (inps : List IterInput) : List ℚ :=
  ((streamTrace last inps).filter (fun p => isCaptureAttempt p.2)).map (fun p => p.1)

lemma streamIter_skip_eq (last : ℚ) (inp : IterInput)
    (h : inp.now - last < 1 / MAX_FPS) :
    streamIter last inp = (IterResult.rateSkip (1/1000), last) := by
  rw [streamIter, if_pos h]

lemma streamIter_snd (last : ℚ) (inp : IterInput) :
    (streamIter last inp).2 =
      if inp.now - last < 1 / MAX_FPS then last else inp.now := by
  by_cases h : inp.now - last < 1 / MAX_FPS
  · rw [streamIter_skip_eq last inp h, if_pos h]
  · rw [if_neg h, streamIter, if_neg h]
    by_cases hc : inp.capRet = false
    · rw [if_pos hc]
    · rw [if_neg hc]
      rcases hnorm : normalize_boxes (inp.frameH, inp.frameW) inp.detBoxes inp.detConfs
        with e | nb
      · rfl
      · by_cases he : inp.encodeOk = false <;> simp [he]

lemma streamIter_pass_attempt (last : ℚ) (inp : IterInput)
    (h : ¬ inp.now - last < 1 / MAX_FPS) :
    isCaptureAttempt (streamIter last inp).1 = true := by
  rw [streamIter, if_neg h]
  by_cases hc : inp.capRet = false
  · rw [if_pos hc]
    rfl
  · rw [if_neg hc]
    rcases hnorm : normalize_boxes (inp.frameH, inp.frameW) inp.detBoxes inp.detConfs
      with e | nb
    · rfl
    · by_cases he : inp.encodeOk = false <;> simp [he, isCaptureAttempt]

lemma captureTimes_cons_skip (last : ℚ) (inp : IterInput) (rest : List IterInput)
    (h : inp.now - last < 1 / MAX_FPS) :
    captureTimes last (inp :: rest) = captureTimes last rest := by
  rw [captureTimes, streamTrace]
  simp only [streamIter_skip_eq last inp h]
  rw [List.filter_cons]
  simp [isCaptureAttempt, captureTimes]

lemma captureTimes_cons_pass (last : ℚ) (inp : IterInput) (rest : List IterInput)
    (h : ¬ inp.now - last < 1 / MAX_FPS) :
    captureTimes last (inp :: rest) = inp.now :: captureTimes inp.now rest := by
  rw [captureTimes, streamTrace]
  rw [List.filter_cons]
  have hatt : isCaptureAttempt (streamIter last inp).1 = true :=
    streamIter_pass_attempt last inp h
  have hsnd : (streamIter last inp).2 = inp.now := by
    rw [streamIter_snd, if_neg h]
  simp [hatt, hsnd, captureTimes]

lemma captureTimes_head (inps : List IterInput) :
    ∀ last : ℚ, ∀ t ∈ (captureTimes last inps).head?, 1 / MAX_FPS ≤ t - last := by
  induction inps with
  | nil =>
    intro last t ht
    simp [captureTimes, streamTrace] at ht
  | cons inp rest ih =>
    intro last t ht
    by_cases h : inp.now - last < 1 / MAX_FPS
    · rw [captureTimes_cons_skip last inp rest h] at ht
      exact ih last t ht
    · rw [captureTimes_cons_pass last inp rest h] at ht
      simp only [List.head?_cons, Option.mem_def, Option.some.injEq] at ht
      subst ht
      linarith [not_lt.mp h]

lemma captureTimes_chain (inps : List IterInput) :
    ∀ last : ℚ, List.Chain' (fun a b => 1 / MAX_FPS ≤ b - a) (captureTimes last inps) := by
  induction inps with
  | nil =>
    intro last
    simp [captureTimes, streamTrace]
  | cons inp rest ih =>
    intro last
    by_cases h : inp.now - last < 1 / MAX_FPS
    · rw [captureTimes_cons_skip last inp rest h]
      exact ih last
    · rw [captureTimes_cons_pass last inp rest h]
      rw [List.chain'_cons']
      exact ⟨fun b hb => captureTimes_head rest inp.now b hb, ih inp.now⟩

/-- Claim C8: `last_frame_time` is updated to the current clock reading
exactly when the loop proceeds past the rate check (never on a rate-limit
re-check), and consequently any two consecutive capture attempts in a run of
the streaming loop are separated by at least `1/MAX_FPS` seconds — 100 ms at
`MAX_FPS = 10` — making `MAX_FPS` an upper bound on the capture rate. -/
theorem producer_rate_limit (last : ℚ) (inps : List IterInput) (inp : IterInput) :
    ((streamIter last inp).2 =
      if inp.now - last < 1 / MAX_FPS then last else inp.now) ∧
    List.Chain' (fun a b => 1 / MAX_FPS ≤ b - a) (captureTimes last inps) :=
  ⟨streamIter_snd last inp, captureTimes_chain inps last⟩
